import Mathlib

/-!
Verification of the Market-Data Acquisition & Signal Engine
(`data-service/app/services/{stock_data, indicators, ml_predict}.py`).

Modelling conventions (shallow embedding):
* pandas/numpy float values are modelled as rationals (`ℚ`); a float cell
  that is NaN (or any non-finite value, which the guards `pd.isna`/`dropna`
  treat together with NaN only in degenerate zero-denominator situations
  that require non-positive prices) is modelled as `none : Option ℚ`.
* `sqrt` (used only by `rolling(...).std()` inside Bollinger bands and the
  xgboost `volatility` feature, whose numeric values no claim depends on)
  is a parameter `sq : ℚ → ℚ` of the development.
* the scikit-learn `GradientBoostingClassifier` is an external library
  component; `fit` + `predict_proba` are modelled by a parameter
  `gbm : List (List ℚ × Nat) → List ℚ → List ℚ` mapping a training set and
  a feature row to a class-probability vector.
* Python exceptions inside a `try`-block are modelled with `Except`;
  the `except` clause is the `.error` branch of the wrapper.
* dates never influence any claim; the `date` column is abstracted as `Nat`.
-/

/-- One OHLCV bar of the canonical schema produced by the Kline Retriever
(`date, open, close, high, low, volume, amount`). -/
structure Bar where
  date : Nat
  open_ : ℚ
  close : ℚ
  high : ℚ
  low : ℚ
  volume : ℚ
  amount : ℚ
deriving DecidableEq

/-- Sum of a list of rationals. -/
def sumQ (xs : List ℚ) : ℚ := xs.foldl (· + ·) 0

/-- Arithmetic mean (pandas mean of a complete window); `0` on `[]`,
which is never reached where the source evaluates a mean. -/
def meanQ (xs : List ℚ) : ℚ := sumQ xs / xs.length

/-- `xs.tail(n)` of pandas / `xs[-n:]` of numpy: the trailing `n` elements
(the whole list when it is shorter). -/
def takeLastN (n : Nat) (xs : List α) : List α := xs.drop (xs.length - n)

/-- `np.diff`: first differences, `diff[i] = x[i+1] - x[i]`. -/
def npDiff (xs : List ℚ) : List ℚ := List.zipWith (fun a b => b - a) xs xs.tail

/-- Minimum of a list (`.min()` over a complete window); `0` on `[]`. -/
def minListD (xs : List ℚ) : ℚ :=
  match xs with
  | [] => 0
  | h :: t => t.foldl min h

/-- Maximum of a list (`.max()` over a complete window); `0` on `[]`. -/
def maxListD (xs : List ℚ) : ℚ :=
  match xs with
  | [] => 0
  | h :: t => t.foldl max h

/-- Last element with default `0` (`.iloc[-1]` / `close[-1]`, only reached
on non-empty data in the source). -/
def lastD (xs : List ℚ) : ℚ := xs.getLastD 0

/-- Float division; a zero denominator yields a non-finite value, modelled
as undefined (`none`). -/
def qdiv (a b : ℚ) : Option ℚ := if b = 0 then none else some (a / b)

/-- `ewm(alpha := α, adjust := False).mean().iloc[-1]`: the recursive
exponential average `y₀ = x₀`, `yᵢ = (1-α)·yᵢ₋₁ + α·xᵢ`; `0` on `[]`
(masked by `min_periods` wherever the source reads it). -/
def emaFold (α : ℚ) (xs : List ℚ) : ℚ :=
  match xs with
  | [] => 0
  | h :: t => t.foldl (fun y x => (1 - α) * y + α * x) h

/-- `ewm(span := s, adjust := True).mean().iloc[-1]` (pandas default used by
`_lstm_predict`): weighted mean with weight `(1-α)^i` on the `i`-th most
recent element, `α = 2/(s+1)`. -/
def ewmAdjTrueLast (span : Nat) (xs : List ℚ) : ℚ :=
  let α : ℚ := 2 / (span + 1)
  let ws := (List.range xs.length).map (fun i => (1 - α) ^ i)
  sumQ (List.zipWith (· * ·) xs.reverse ws) / sumQ ws

/-! ## Indicator Calculator (`indicators.py`, `TechnicalIndicators`) -/

/-- `ta.trend.MACD` line at the last position: `EMA₁₂ - EMA₂₆` of close with
`adjust=False`, masked (`NaN`) while fewer than 26 observations. -/
def macdLast (closes : List ℚ) : Option ℚ :=
  if closes.length < 26 then none
  else some (emaFold (2/13) closes - emaFold (2/27) closes)

/-- The defined values of the MACD line series (indices `25..n-1`),
feeding the signal-line EWM which skips the leading NaNs. -/
def macdSeriesVals (closes : List ℚ) : List ℚ :=
  (List.range closes.length).filterMap (fun i =>
    if i + 1 < 26 then none
    else some (emaFold (2/13) (closes.take (i+1)) - emaFold (2/27) (closes.take (i+1))))

/-- `ta.trend.MACD` signal line at the last position: span-9 `adjust=False`
EWM of the MACD line, masked until 9 defined MACD values exist. -/
def signalLast (closes : List ℚ) : Option ℚ :=
  let m := macdSeriesVals closes
  if m.length < 9 then none else some (emaFold (1/5) m)

/-- `ta.trend.MACD` histogram (`macd_diff`) at the last position. -/
def histLast (closes : List ℚ) : Option ℚ :=
  match macdLast closes, signalLast closes with
  | some a, some b => some (a - b)
  | _, _ => none

/-- `ta.momentum.RSIIndicator(close)` (window 14) at the last position:
Wilder smoothing (`ewm(alpha=1/14, adjust=False)`) of up/down moves; the
first move is 0 (`NaN > 0` is `False` under `.where`); written as
`100·up/(up+down)`, which also covers the `rs = ∞` case, and undefined when
both smoothed averages are zero (`0/0`). -/
def rsiLast (closes : List ℚ) : Option ℚ :=
  if closes.length < 14 then none
  else
    let diffs := npDiff closes
    let ups := 0 :: diffs.map (fun d => if 0 < d then d else 0)
    let downs := 0 :: diffs.map (fun d => if d < 0 then -d else 0)
    let u := emaFold (1/14) ups
    let v := emaFold (1/14) downs
    (qdiv (100 * u) (u + v))

/-- `ta.momentum.StochasticOscillator` %K (window 14) at the last position:
`100·(close - min₁₄ low)/(max₁₄ high - min₁₄ low)`, masked while fewer than
14 bars, undefined when the range is degenerate. -/
def stochKLast (bars : List Bar) : Option ℚ :=
  if bars.length < 14 then none
  else
    let w := takeLastN 14 bars
    let lo := minListD (w.map (·.low))
    let hi := maxListD (w.map (·.high))
    qdiv (100 * (lastD (bars.map (·.close)) - lo)) (hi - lo)

/-- `ta.momentum.StochasticOscillator` %D at the last position: 3-period
simple mean of %K, i.e. the mean of %K evaluated at the last three
positions, undefined if any of them is. -/
def stochDLast (bars : List Bar) : Option ℚ :=
  match stochKLast bars, stochKLast bars.dropLast, stochKLast bars.dropLast.dropLast with
  | some a, some b, some c => some ((c + b + a) / 3)
  | _, _, _ => none

/-- Population variance (`ddof=0`) of a window, used by Bollinger `std`. -/
def popVar (xs : List ℚ) : ℚ :=
  sumQ (xs.map (fun x => (x - meanQ xs) ^ 2)) / xs.length

/-- Sample variance (`ddof=1`, the pandas `rolling(..).std()` default) of a
window, used by the xgboost `volatility` feature. -/
def sampleVar (xs : List ℚ) : ℚ :=
  sumQ (xs.map (fun x => (x - meanQ xs) ^ 2)) / (xs.length - 1 : ℕ)

/-- `ta.volatility.BollingerBands` middle band: SMA-20 of close. -/
def bollMidLast (closes : List ℚ) : Option ℚ :=
  if closes.length < 20 then none else some (meanQ (takeLastN 20 closes))

/-- Bollinger rolling standard deviation at the last position, via the
square-root parameter `sq`. -/
def bollStdLast (sq : ℚ → ℚ) (closes : List ℚ) : Option ℚ :=
  if closes.length < 20 then none else some (sq (popVar (takeLastN 20 closes)))

/-- Bollinger upper band: `SMA₂₀ + 2·std₂₀`. -/
def bollUpLast (sq : ℚ → ℚ) (closes : List ℚ) : Option ℚ :=
  match bollMidLast closes, bollStdLast sq closes with
  | some m, some s => some (m + 2 * s)
  | _, _ => none

/-- Bollinger lower band: `SMA₂₀ - 2·std₂₀`. -/
def bollLowLast (sq : ℚ → ℚ) (closes : List ℚ) : Option ℚ :=
  match bollMidLast closes, bollStdLast sq closes with
  | some m, some s => some (m - 2 * s)
  | _, _ => none

/-- The Indicator Set: the dict returned by `calculate_all`. A `none` field
models an absent key, so the empty dict is the record with every field
`none`; `get_signals` reads keys through `.get` with defaults. -/
structure IndicatorDict where
  current_price : Option ℚ := none
  ma5 : Option ℚ := none
  ma10 : Option ℚ := none
  ma20 : Option ℚ := none
  ma60 : Option ℚ := none
  macd : Option ℚ := none
  signal : Option ℚ := none
  hist : Option ℚ := none
  rsi : Option ℚ := none
  kdj_k : Option ℚ := none
  kdj_d : Option ℚ := none
  kdj_j : Option ℚ := none
  boll_upper : Option ℚ := none
  boll_middle : Option ℚ := none
  boll_lower : Option ℚ := none
  support_level : Option ℚ := none
  resistance_level : Option ℚ := none
deriving DecidableEq

/-- The empty dict `{}` returned for series shorter than 60 bars. -/
def emptyIndicators : IndicatorDict := {}

/-- `TechnicalIndicators.calculate_all`. Guard: fewer than 60 bars (or an
empty frame) yields the empty dict. Otherwise every key is set, with each
`if not pd.isna(..) else default` guard modelled by `Option.getD`; the
moving averages carry no guard and are always defined at length ≥ 60;
`kdj_j` is computed from the already-defaulted `kdj_k`/`kdj_d` entries
exactly as in the source (`3 * result['kdj_k'] - 2 * result['kdj_d']`). -/
def calculate_all (sq : ℚ → ℚ) (bars : List Bar) : IndicatorDict :=
  if bars.length < 60 then emptyIndicators
  else
    let closes := bars.map (·.close)
    let kv := (stochKLast bars).getD 50
    let dv := (stochDLast bars).getD 50
    { current_price := some (lastD closes)
      ma5 := some (meanQ (takeLastN 5 closes))
      ma10 := some (meanQ (takeLastN 10 closes))
      ma20 := some (meanQ (takeLastN 20 closes))
      ma60 := some (meanQ (takeLastN 60 closes))
      macd := some ((macdLast closes).getD 0)
      signal := some ((signalLast closes).getD 0)
      hist := some ((histLast closes).getD 0)
      rsi := some ((rsiLast closes).getD 50)
      kdj_k := some kv
      kdj_d := some dv
      kdj_j := some (3 * kv - 2 * dv)
      boll_upper := some ((bollUpLast sq closes).getD 0)
      boll_middle := some ((bollMidLast closes).getD 0)
      boll_lower := some ((bollLowLast sq closes).getD 0)
      support_level := some (minListD ((takeLastN 20 bars).map (·.low)))
      resistance_level := some (maxListD ((takeLastN 20 bars).map (·.high))) }

/-- A categorical signal `{name, type, desc}`. -/
structure Signal where
  name : String
  type : String
  desc : String
deriving DecidableEq

/-- `TechnicalIndicators.get_signals`: the four signals, in the fixed order
MACD, RSI, KDJ, moving-average alignment, with the source's `.get`
defaults (0 for macd/signal/price/ma, 50 for rsi/kdj_j). -/
def get_signals (ind : IndicatorDict) : List Signal :=
  let macdSig :=
    if ind.signal.getD 0 < ind.macd.getD 0 then
      ⟨"MACD", "bullish", "金叉"⟩
    else
      (⟨"MACD", "bearish", "死叉"⟩ : Signal)
  let rsiv := ind.rsi.getD 50
  let rsiSig :=
    if 70 < rsiv then (⟨"RSI", "bearish", "超买"⟩ : Signal)
    else if rsiv < 30 then ⟨"RSI", "bullish", "超卖"⟩
    else ⟨"RSI", "neutral", "中性"⟩
  let jv := ind.kdj_j.getD 50
  let kdjSig :=
    if 80 < jv then (⟨"KDJ", "bearish", "超买"⟩ : Signal)
    else if jv < 20 then ⟨"KDJ", "bullish", "超卖"⟩
    else ⟨"KDJ", "neutral", "中性"⟩
  let price := ind.current_price.getD 0
  let ma5v := ind.ma5.getD 0
  let ma20v := ind.ma20.getD 0
  let maSig :=
    if ma5v < price ∧ ma20v < ma5v then (⟨"均线", "bullish", "多头排列"⟩ : Signal)
    else if price < ma5v ∧ ma5v < ma20v then ⟨"均线", "bearish", "空头排列"⟩
    else ⟨"均线", "neutral", "交织"⟩
  [macdSig, rsiSig, kdjSig, maSig]

/-! ## Trend Ensemble (`ml_predict.py`, `MLPredictService`) -/

/-- One estimator's result `{trend, price, confidence}`. -/
structure PredResult where
  trend : String
  price : ℚ
  confidence : ℚ
deriving DecidableEq

/-- The shared fallback value `{'sideways', last close, 0.5}` produced by
every estimator's `except` clause (and by the xgboost small-sample exit). -/
def fallbackOf (closes : List ℚ) : PredResult := ⟨"sideways", lastD closes, 1/2⟩

/-- numpy element-wise division with broadcasting: defined when the shapes
agree or one operand has length 1; any other shape pair raises
`ValueError`. -/
def elemDiv (xs ys : List ℚ) : Except String (List ℚ) :=
  if xs.length = ys.length then .ok (List.zipWith (· / ·) xs ys)
  else if xs.length = 1 then .ok (ys.map (fun y => lastD xs / y))
  else if ys.length = 1 then .ok (xs.map (fun x => x / lastD ys))
  else .error "operands could not be broadcast"

/-- The `try`-block of `MLPredictService._lstm_predict` (momentum
extrapolation). `close[-10:]` has 10 elements, so `np.diff` of it has 9,
while `close[-11:-1]` has 10 (for series of length ≥ 11): the element-wise
division raises, which the wrapper turns into the fallback. The statements
before it follow the source (EWMs with pandas default `adjust=True`); ℚ
division by zero stands for numpy's non-raising non-finite result. -/
def lstmBody (closes : List ℚ) : Except String PredResult := do
  let emaShort := ewmAdjTrueLast 5 closes
  let emaLong := ewmAdjTrueLast 20 closes
  let currentPrice := lastD closes
  let trendFactor := (emaShort - emaLong) / emaLong
  let predictedPrice := currentPrice * (1 + trendFactor * (1/2))
  let trend :=
    if currentPrice * (101/100) < predictedPrice then "up"
    else if predictedPrice < currentPrice * (99/100) then "down"
    else "sideways"
  match elemDiv (npDiff (takeLastN 10 closes)) (takeLastN 11 closes).dropLast with
  | .error e => .error e
  | .ok recentReturns =>
    let consistency :=
      if trend = "up" then
        ((recentReturns.filter (fun r => 0 < r)).length : ℚ) / recentReturns.length
      else
        ((recentReturns.filter (fun r => r < 0)).length : ℚ) / recentReturns.length
    let confidence := min (9/10) (max (3/10) consistency)
    .ok ⟨trend, predictedPrice, confidence⟩

/-- `MLPredictService._lstm_predict`: the `try` body with its `except`
clause returning the fallback. -/
def lstm_predict (closes : List ℚ) : PredResult :=
  match lstmBody closes with
  | .ok r => r
  | .error _ => fallbackOf closes

/-- Sum `Σ (a+k)·xs[k]` of index-weighted values, the building block of the
`np.polyfit(x, close, 1)` normal equations with `x = 0..n-1`. -/
def dotIdx : ℚ → List ℚ → ℚ
  | _, [] => 0
  | a, y :: ys => a * y + dotIdx (a + 1) ys

/-- Sum `a + (a+1) + ... + (a+n-1)` of `n` consecutive x-values. -/
def idxSum : ℚ → Nat → ℚ
  | _, 0 => 0
  | a, n + 1 => a + idxSum (a + 1) n

/-- Sum `a² + (a+1)² + ... + (a+n-1)²` of squares of consecutive x-values. -/
def idxSqSum : ℚ → Nat → ℚ
  | _, 0 => 0
  | a, n + 1 => a ^ 2 + idxSqSum (a + 1) n

/-- Slope of `np.polyfit(np.arange(n), ys, 1)`: the ordinary least-squares
solution of the degree-1 normal equations,
`(n·Σxy − Σx·Σy) / (n·Σx² − (Σx)²)`. -/
def olsSlope (ys : List ℚ) : ℚ :=
  let n : ℚ := ys.length
  (n * dotIdx 0 ys - idxSum 0 ys.length * sumQ ys)
    / (n * idxSqSum 0 ys.length - (idxSum 0 ys.length) ^ 2)

/-- Intercept of `np.polyfit(np.arange(n), ys, 1)`:
`(Σy − slope·Σx)/n`. -/
def olsIntercept (ys : List ℚ) : ℚ :=
  (sumQ ys - olsSlope ys * idxSum 0 ys.length) / (ys.length : ℚ)

/-- `ss_res` of `_prophet_predict`: residual sum of squares of the fitted
line `y_pred = slope*x + intercept` over `x = 0..n-1`. -/
def prophetSSRes (ys : List ℚ) : ℚ :=
  sumQ (ys.enum.map (fun p => (p.2 - (olsSlope ys * (p.1 : ℚ) + olsIntercept ys)) ^ 2))

/-- `ss_tot` of `_prophet_predict`: total sum of squares about the mean. -/
def prophetSSTot (ys : List ℚ) : ℚ :=
  sumQ (ys.map (fun c => (c - meanQ ys) ^ 2))

/-- `r2 = 1 - ss_res/ss_tot if ss_tot > 0 else 0` of `_prophet_predict`. -/
def prophetR2 (ys : List ℚ) : ℚ :=
  if 0 < prophetSSTot ys then 1 - prophetSSRes ys / prophetSSTot ys else 0

/-- `MLPredictService._prophet_predict` (linear extrapolation over the last
30 closes, `x = 0..29`, prediction at `future_x = len(close) + 5`). The
`try` body is total on numeric data, so the `except` clause is
unreachable and the function is its body. -/
def prophet_predict (closesAll : List ℚ) : PredResult :=
  let closes := takeLastN 30 closesAll
  let slope := olsSlope closes
  let intercept := olsIntercept closes
  let futureX : ℚ := (closes.length : ℚ) + 5
  let predictedPrice := slope * futureX + intercept
  let currentPrice := lastD closes
  let trend :=
    if 0 < slope ∧ currentPrice * (101/100) < predictedPrice then "up"
    else if slope < 0 ∧ predictedPrice < currentPrice * (99/100) then "down"
    else "sideways"
  let confidence := min (9/10) (max (3/10) |prophetR2 closes|)
  ⟨trend, predictedPrice, confidence⟩

/-- `pct_change(k)` of the close column at row `i`:
`(close[i] - close[i-k]) / close[i-k]`, NaN for the first `k` rows. -/
def pctChangeAt (closes : List ℚ) (k i : Nat) : Option ℚ :=
  if i < k then none
  else do
    let c ← closes.get? i
    let p ← closes.get? (i - k)
    qdiv (c - p) p

/-- `rolling(w).mean()` of the close column at row `i` (NaN while the
window is incomplete). -/
def rollMeanAt (closes : List ℚ) (w i : Nat) : Option ℚ :=
  if i + 1 < w then none else some (meanQ (takeLastN w (closes.take (i + 1))))

/-- `rolling(10).std()` (sample std, `ddof=1`) of the close column at row
`i`, via the square-root parameter `sq`. -/
def volAt (sq : ℚ → ℚ) (closes : List ℚ) (i : Nat) : Option ℚ :=
  if i + 1 < 10 then none else some (sq (sampleVar (takeLastN 10 (closes.take (i + 1)))))

/-- `(close.shift(-5) > close).astype(int)` at row `i`: the label is `1`
when the close 5 rows later exists and exceeds the current close, else `0`
— in particular a missing 5-row lookahead compares as `False` and yields
the (defined) label `0`, never NaN. -/
def targetAt (closes : List ℚ) (i : Nat) : Nat :=
  match closes.get? (i + 5), closes.get? i with
  | some c5, some c => if c < c5 then 1 else 0
  | _, _ => 0

/-- One row of `df_features` that survives `dropna()`: the five feature
values and the label. -/
structure FeatRow where
  return_1 : ℚ
  return_5 : ℚ
  return_10 : ℚ
  ma_ratio : ℚ
  volatility : ℚ
  target : Nat
deriving DecidableEq

/-- The feature vector (`feature_cols` order) of a row. -/
def featsOf (r : FeatRow) : List ℚ :=
  [r.return_1, r.return_5, r.return_10, r.ma_ratio, r.volatility]

/-- `df_features.dropna()`: the rows (in order) whose derived columns are
all defined. The original columns and the label are always defined, so a
row is dropped exactly when one of `return_1/5/10`, `ma5`, `ma20`,
`ma_ratio`, `volatility` is NaN. -/
def validRows (sq : ℚ → ℚ) (closes : List ℚ) : List FeatRow :=
  (List.range closes.length).filterMap (fun i => do
    let r1 ← pctChangeAt closes 1 i
    let r5 ← pctChangeAt closes 5 i
    let r10 ← pctChangeAt closes 10 i
    let m5 ← rollMeanAt closes 5 i
    let m20 ← rollMeanAt closes 20 i
    let mr ← qdiv m5 m20
    let v ← volAt sq closes i
    pure ⟨r1, r5, r10, mr, v, targetAt closes i⟩)

/-- The training set `zip(X, y)` with `X = values[:-5]`, `y = target[:-5]`:
all valid rows except the most recent 5. -/
def xgbTrain (sq : ℚ → ℚ) (closes : List ℚ) : List (List ℚ × Nat) :=
  ((validRows sq closes).dropLast.dropLast.dropLast.dropLast.dropLast).map
    (fun r => (featsOf r, r.target))

/-- The single most recent feature row `values[-1:]` that is scored. -/
def xgbLatest (sq : ℚ → ℚ) (closes : List ℚ) : List ℚ :=
  featsOf ((validRows sq closes).getLastD ⟨0, 0, 0, 0, 0, 0⟩)

/-- The `try`-block of `MLPredictService._xgboost_predict`. `gbm` models
`GradientBoostingClassifier(n_estimators=50, max_depth=3, random_state=42)
.fit(X, y).predict_proba(X_latest)[0]`; `prob[1]` is read first (inside
`if prob[1] > 0.6`), and a missing index raises (`IndexError` → fallback).
A fit/predict failure — e.g. single-class training labels make `fit`
raise `ValueError` — is modelled by the classifier parameter returning a
vector without index 1, which takes the same `except` path to the
fallback. -/
def xgbBody (sq : ℚ → ℚ) (gbm : List (List ℚ × Nat) → List ℚ → List ℚ)
    (closes : List ℚ) : Except String PredResult :=
  let rows := validRows sq closes
  if rows.length < 50 then .ok (fallbackOf closes)
  else
    let prob := gbm (xgbTrain sq closes) (xgbLatest sq closes)
    match prob.get? 1 with
    | none => .error "index 1 is out of bounds"
    | some p1 =>
      if 3/5 < p1 then
        .ok ⟨"up", lastD closes * (1 + 3/100 * p1), p1⟩
      else
        match prob.get? 0 with
        | none => .error "index 0 is out of bounds"
        | some p0 =>
          if 3/5 < p0 then
            .ok ⟨"down", lastD closes * (1 - 3/100 * p0), p0⟩
          else
            .ok ⟨"sideways", lastD closes, maxListD prob⟩

/-- `MLPredictService._xgboost_predict`: the `try` body with its `except`
clause returning the fallback. -/
def xgboost_predict (sq : ℚ → ℚ) (gbm : List (List ℚ × Nat) → List ℚ → List ℚ)
    (closes : List ℚ) : PredResult :=
  match xgbBody sq gbm closes with
  | .ok r => r
  | .error _ => fallbackOf closes

/-- The merged nine-key record returned by `predict_all`. -/
structure PredictAllResult where
  lstm_trend : String
  lstm_price : ℚ
  lstm_confidence : ℚ
  prophet_trend : String
  prophet_price : ℚ
  prophet_confidence : ℚ
  xgboost_trend : String
  xgboost_price : ℚ
  xgboost_confidence : ℚ
deriving DecidableEq

/-- `MLPredictService._empty_result`: the fixed default record. -/
def emptyResult : PredictAllResult :=
  ⟨"sideways", 0, 1/2, "sideways", 0, 1/2, "sideways", 0, 1/2⟩

/-- `MLPredictService.predict_all`: for fewer than 60 bars the fixed
default record; otherwise the three estimators' results merged under the
`lstm_*`, `prophet_*`, `xgboost_*` prefixes. The estimators read only the
`close` column, so the input frame is modelled by that column. -/
def predict_all (sq : ℚ → ℚ) (gbm : List (List ℚ × Nat) → List ℚ → List ℚ)
    (closes : List ℚ) : PredictAllResult :=
  if closes.length < 60 then emptyResult
  else
    let l := lstm_predict closes
    let p := prophet_predict closes
    let x := xgboost_predict sq gbm closes
    ⟨l.trend, l.price, l.confidence,
     p.trend, p.price, p.confidence,
     x.trend, x.price, x.confidence⟩

/-! ## Stock directory search (`stock_data.py`, `search_stocks`) -/

/-- A Python string as a list of code points. -/
abbrev PyStr := List Nat

/-- `str.upper()` on one character (ASCII case mapping; characters outside
the lowercase ASCII range — digits and CJK in the directory — are fixed). -/
def upperChar (c : Nat) : Nat := if 97 ≤ c ∧ c ≤ 122 then c - 32 else c

/-- `str.upper()`. -/
def upperStr (s : PyStr) : PyStr := s.map upperChar

/-- Whether `pat` occurs at the start of `s`. -/
def startsWithStr : PyStr → PyStr → Bool
  | _, [] => true
  | [], _ :: _ => false
  | a :: as_, b :: bs => a == b && startsWithStr as_ bs

/-- Python's `pat in s`: substring containment. -/
def hasSubstr : PyStr → PyStr → Bool
  | s, pat =>
    startsWithStr s pat ||
      match s with
      | [] => false
      | _ :: t => hasSubstr t pat

/-- One directory entry `{code, name, market}`. -/
structure StockEntry where
  code : PyStr
  name : PyStr
  market : PyStr
deriving DecidableEq

/-- The match predicate of `search_stocks` after `keyword = keyword.upper()`:
`keyword in s['code'] or keyword in s['name'].upper()`. -/
def stockMatches (kw : PyStr) (s : StockEntry) : Bool :=
  hasSubstr s.code (upperStr kw) || hasSubstr (upperStr s.name) (upperStr kw)

/-- `StockDataService.search_stocks` over the cached directory: an empty
(falsy) keyword returns the whole directory; otherwise the matching
entries, capped by `[:100]`. -/
def search_stocks (allStocks : List StockEntry) (keyword : PyStr) : List StockEntry :=
  if keyword.isEmpty then allStocks
  else ((allStocks.filter (stockMatches keyword)).take 100)

/-! ## Kline Retriever (`stock_data.py`, `get_kline`) -/

/-- `StockDataService._get_kline_sina`: the upstream response is modelled
as `none` (any network/HTTP/parse failure or empty payload, all swallowed
by the `try`/`except` and `if` guards) or `some rows` (the parsed,
normalized rows). The request carries `datalen = 250`. On failure the
adapter returns an empty frame. -/
def getKlineSina (resp : Option (List Bar)) : List Bar := resp.getD []

/-- The retry loop of `StockDataService._get_kline_akshare`: up to 3
attempts (with sleeps, immaterial here); a raising (`none`) or empty
attempt falls through to the next; the first non-empty frame is
normalized and right-truncated by `df.tail(250)`; an exhausted loop
returns an empty frame. -/
def akshareLoop : List (Option (List Bar)) → List Bar
  | [] => []
  | none :: rest => akshareLoop rest
  | some df :: rest => if df.isEmpty then akshareLoop rest else takeLastN 250 df

/-- `StockDataService._get_kline_akshare` with its 3 attempts. -/
def get_kline_akshare (a1 a2 a3 : Option (List Bar)) : List Bar :=
  akshareLoop [a1, a2, a3]

/-- `StockDataService.get_kline`: try the sina (snapshot-style) adapter
first and return its frame when non-empty; otherwise the akshare
(historical) adapter's frame when non-empty; otherwise an empty frame.
Being a total function of the adapter outcomes, it never propagates an
exception. -/
def get_kline (sina : Option (List Bar)) (a1 a2 a3 : Option (List Bar)) : List Bar :=
  let d1 := getKlineSina sina
  if !d1.isEmpty then d1
  else
    let d2 := get_kline_akshare a1 a2 a3
    if !d2.isEmpty then d2
    else []

/-! ## Concrete inputs for witnesses, and the spec-side refinement definition -/

/-- A flat synthetic bar used by concrete witnesses. -/
def flatBar (i : Nat) : Bar := ⟨i, 100, 100, 100, 100, 1000, 0⟩

/-- 60 flat synthetic bars. -/
def demoBars60 : List Bar := (List.range 60).map flatBar

/-- Two synthetic directory entries (codes "600000" and "000001"). -/
def demoStocks : List StockEntry :=
  [⟨[54, 48, 48, 48, 48, 48], [112, 97], [83, 72]⟩,
   ⟨[48, 48, 48, 48, 48, 49], [98, 107], [83, 90]⟩]

/-- 300 flat synthetic bars (the 300-row frame of the claim's scenario). -/
def demoBars300 : List Bar := (List.range 300).map flatBar

/-- 60 synthetic strictly-increasing closes `100 + i`. -/
def demoClose60 : List ℚ := (List.range 60).map (fun (i : ℕ) => (100 : ℚ) + i)

/-- The spec's notion of a "valid labeled row" (refinement definition
following the spec's words, for comparison with the code): a row whose
features are all defined AND whose 5-bar-lookahead label is defined,
i.e. `close[i+5]` exists. -/
def specValidLabeledRows (sq : ℚ → ℚ) (closes : List ℚ) : List FeatRow :=
  (List.range closes.length).filterMap (fun i => do
    let r1 ← pctChangeAt closes 1 i
    let r5 ← pctChangeAt closes 5 i
    let r10 ← pctChangeAt closes 10 i
    let m5 ← rollMeanAt closes 5 i
    let m20 ← rollMeanAt closes 20 i
    let mr ← qdiv m5 m20
    let v ← volAt sq closes i
    if i + 5 < closes.length then
      pure ⟨r1, r5, r10, mr, v, targetAt closes i⟩
    else none)

/-- The zero square-root stand-in used by concrete witnesses (the claims
never depend on the value of a standard deviation). -/
def sq0 : ℚ → ℚ := fun _ => 0

/-- A classifier stand-in returning probabilities `[0.05, 0.95]` on every
input — a legitimate `predict_proba` outcome of a confident model. -/
def gbm95 : List (List ℚ × Nat) → List ℚ → List ℚ := fun _ _ => [1/20, 19/20]

/-- 69 synthetic strictly-increasing closes `100 + i`. -/
def demoClose69 : List ℚ := (List.range 69).map (fun (i : ℕ) => (100 : ℚ) + i)

/-- 75 synthetic closes rising for 60 bars (`100 + i`) then falling
(`218 - i`), so the 5-bar-lookahead labels of the training rows contain
both classes and a two-class fit is possible. -/
def demoMixed75 : List ℚ :=
  (List.range 75).map (fun (i : ℕ) => if i < 60 then (100 : ℚ) + i else 218 - i)

/-! ## General lemmas -/

theorem takeLastN_length_le (n : Nat) (xs : List α) : (takeLastN n xs).length ≤ n := by
  simp [takeLastN]
  omega

theorem takeLastN_length_of_le {n : Nat} {xs : List α} (h : n ≤ xs.length) :
    (takeLastN n xs).length = n := by
  simp [takeLastN]
  omega

/-! ## Claim theorems -/

/-- C1: for every bar series with fewer than 60 bars (including the empty
series), `calculate_all` returns the empty indicator dict and
`predict_all` returns the fixed default record with all three trends
`"sideways"`, all three prices `0` and all three confidences `0.5`. -/
theorem short_series_yield_defaults (sq : ℚ → ℚ)
    (gbm : List (List ℚ × Nat) → List ℚ → List ℚ) (bars : List Bar)
    (h : bars.length < 60) :
    calculate_all sq bars = emptyIndicators ∧
      predict_all sq gbm (bars.map (·.close)) = emptyResult := by
  constructor
  · simp [calculate_all, h]
  · simp [predict_all, h]

theorem short_series_yield_defaults_witness :
    (([] : List Bar).length < 60) ∧
      calculate_all (fun q => q) [] = emptyIndicators ∧
      predict_all (fun q => q) (fun _ _ => []) [] = emptyResult := by
  refine ⟨by decide, ?_⟩
  simpa using short_series_yield_defaults (fun q => q) (fun _ _ => []) [] (by decide)

/-- C7: for every indicator mapping (including the empty, all-`none` one),
`get_signals` returns exactly 4 signals in the fixed order MACD, RSI, KDJ,
moving-average alignment; the MACD signal is `"bullish"` exactly when
`macd > signal` and `"bearish"` otherwise — no neutral MACD state. Being a
total function, it never fails. -/
theorem get_signals_shape (ind : IndicatorDict) :
    (get_signals ind).length = 4 ∧
    (get_signals ind).map (·.name) = ["MACD", "RSI", "KDJ", "均线"] ∧
    (get_signals ind).get? 0 =
      some (if ind.signal.getD 0 < ind.macd.getD 0
            then ⟨"MACD", "bullish", "金叉"⟩
            else ⟨"MACD", "bearish", "死叉"⟩) := by
  unfold get_signals
  dsimp only
  refine ⟨rfl, ?_, ?_⟩ <;> split_ifs <;> rfl

/-- C9: for every bar series of at least 60 bars, the indicator dict
returned by `calculate_all` satisfies `kdj_j = 3·kdj_k − 2·kdj_d`
exactly. -/
theorem kdj_j_invariant (sq : ℚ → ℚ) (bars : List Bar) (h : 60 ≤ bars.length) :
    ∃ k d, (calculate_all sq bars).kdj_k = some k ∧
      (calculate_all sq bars).kdj_d = some d ∧
      (calculate_all sq bars).kdj_j = some (3 * k - 2 * d) := by
  have h' : ¬ bars.length < 60 := by omega
  refine ⟨(stochKLast bars).getD 50, (stochDLast bars).getD 50, ?_, ?_, ?_⟩ <;>
    simp [calculate_all, h']



theorem kdj_j_invariant_witness :
    60 ≤ demoBars60.length ∧
      ∃ k d, (calculate_all (fun q => q) demoBars60).kdj_k = some k ∧
        (calculate_all (fun q => q) demoBars60).kdj_d = some d ∧
        (calculate_all (fun q => q) demoBars60).kdj_j = some (3 * k - 2 * d) :=
  ⟨by simp [demoBars60], kdj_j_invariant (fun q => q) demoBars60 (by simp [demoBars60])⟩

/-- C8: classification boundaries are strict: RSI exactly 70 is neutral
while RSI > 70 is bearish, RSI exactly 30 is neutral while RSI < 30 is
bullish; the KDJ signal is bearish iff J > 80, bullish iff J < 20, and
neutral otherwise. -/
theorem rsi_kdj_strict_thresholds (ind : IndicatorDict) :
    ((ind.rsi.getD 50 = 70 → (get_signals ind).get? 1 = some ⟨"RSI", "neutral", "中性"⟩) ∧
     (70 < ind.rsi.getD 50 → (get_signals ind).get? 1 = some ⟨"RSI", "bearish", "超买"⟩) ∧
     (ind.rsi.getD 50 = 30 → (get_signals ind).get? 1 = some ⟨"RSI", "neutral", "中性"⟩) ∧
     (ind.rsi.getD 50 < 30 → (get_signals ind).get? 1 = some ⟨"RSI", "bullish", "超卖"⟩)) ∧
    (((get_signals ind).get? 2 = some ⟨"KDJ", "bearish", "超买"⟩ ↔ 80 < ind.kdj_j.getD 50) ∧
     ((get_signals ind).get? 2 = some ⟨"KDJ", "bullish", "超卖"⟩ ↔ ind.kdj_j.getD 50 < 20) ∧
     ((get_signals ind).get? 2 = some ⟨"KDJ", "neutral", "中性"⟩ ↔
        (20 ≤ ind.kdj_j.getD 50 ∧ ind.kdj_j.getD 50 ≤ 80))) := by
  have h1 : (get_signals ind).get? 1 =
      some (if 70 < ind.rsi.getD 50 then ⟨"RSI", "bearish", "超买"⟩
            else if ind.rsi.getD 50 < 30 then ⟨"RSI", "bullish", "超卖"⟩
            else ⟨"RSI", "neutral", "中性"⟩) := rfl
  have h2 : (get_signals ind).get? 2 =
      some (if 80 < ind.kdj_j.getD 50 then ⟨"KDJ", "bearish", "超买"⟩
            else if ind.kdj_j.getD 50 < 20 then ⟨"KDJ", "bullish", "超卖"⟩
            else ⟨"KDJ", "neutral", "中性"⟩) := rfl
  simp only [h1, h2]
  refine ⟨⟨?_, ?_, ?_, ?_⟩, ?_, ?_, ?_⟩
  · intro h
    rw [h]
    norm_num
  · intro h
    rw [if_pos h]
  · intro h
    rw [h]
    norm_num
  · intro h
    rw [if_neg (by linarith), if_pos h]
  · constructor
    · intro heq
      by_contra hn
      rw [if_neg hn] at heq
      by_cases hb : ind.kdj_j.getD 50 < 20
      · rw [if_pos hb] at heq
        exact absurd heq (by decide)
      · rw [if_neg hb] at heq
        exact absurd heq (by decide)
    · intro h
      rw [if_pos h]
  · constructor
    · intro heq
      by_cases ha : 80 < ind.kdj_j.getD 50
      · rw [if_pos ha] at heq
        exact absurd heq (by decide)
      · rw [if_neg ha] at heq
        by_contra hn
        rw [if_neg hn] at heq
        exact absurd heq (by decide)
    · intro h
      rw [if_neg (by linarith), if_pos h]
  · constructor
    · intro heq
      by_cases ha : 80 < ind.kdj_j.getD 50
      · rw [if_pos ha] at heq
        exact absurd heq (by decide)
      · by_cases hb : ind.kdj_j.getD 50 < 20
        · rw [if_neg ha, if_pos hb] at heq
          exact absurd heq (by decide)
        · exact ⟨by linarith, by linarith⟩
    · intro h
      rw [if_neg (by linarith), if_neg (by linarith)]

theorem rsi_kdj_strict_thresholds_witness :
    (({ rsi := some 70, kdj_j := some 85 } : IndicatorDict).rsi.getD 50 = 70 ∧
      (get_signals { rsi := some 70, kdj_j := some 85 }).get? 1 =
        some ⟨"RSI", "neutral", "中性"⟩) ∧
    (get_signals { rsi := some 70, kdj_j := some 85 }).get? 2 =
      some ⟨"KDJ", "bearish", "超买"⟩ := by
  refine ⟨⟨by decide, ?_⟩, ?_⟩
  · exact (rsi_kdj_strict_thresholds { rsi := some 70, kdj_j := some 85 }).1.1 (by decide)
  · exact (rsi_kdj_strict_thresholds { rsi := some 70, kdj_j := some 85 }).2.1.mpr (by decide)

/-- C10: `search_stocks` with an empty keyword returns the whole cached
directory with no cap; with a non-empty keyword it returns at most 100
entries, namely the (first 100) directory entries whose code contains the
(upper-cased) keyword or whose upper-cased name contains it. -/
theorem search_stocks_spec (stocks : List StockEntry) (kw : PyStr) :
    (kw = [] → search_stocks stocks kw = stocks) ∧
    (kw ≠ [] →
      search_stocks stocks kw = (stocks.filter (stockMatches kw)).take 100 ∧
      (search_stocks stocks kw).length ≤ 100 ∧
      ∀ s ∈ search_stocks stocks kw, s ∈ stocks ∧ stockMatches kw s = true) := by
  constructor
  · intro h
    simp [search_stocks, h]
  · intro h
    have hne : ¬ kw.isEmpty := by simpa [List.isEmpty_iff] using h
    refine ⟨by simp [search_stocks, hne], ?_, ?_⟩
    · simp only [search_stocks, hne, Bool.false_eq_true, if_false]
      exact le_trans (List.length_take_le _ _) (le_refl _)
    · intro s hs
      simp only [search_stocks, hne, Bool.false_eq_true, if_false] at hs
      have hf := List.take_subset _ _ hs
      rw [List.mem_filter] at hf
      exact ⟨hf.1, hf.2⟩



theorem search_stocks_spec_witness :
    search_stocks demoStocks [54, 48] =
        (demoStocks.filter (stockMatches [54, 48])).take 100 ∧
      (search_stocks demoStocks [54, 48]).length ≤ 100 ∧
      search_stocks demoStocks [] = demoStocks := by
  have h := search_stocks_spec demoStocks [54, 48]
  have h2 := h.2 (by decide)
  exact ⟨h2.1, h2.2.1, (search_stocks_spec demoStocks []).1 rfl⟩

theorem akshareLoop_length_le (l : List (Option (List Bar))) :
    (akshareLoop l).length ≤ 250 := by
  induction l with
  | nil => simp [akshareLoop]
  | cons h t ih =>
    cases h with
    | none => simpa [akshareLoop] using ih
    | some df =>
      by_cases hd : df.isEmpty <;>
        simp [akshareLoop, hd, ih, takeLastN_length_le]

/-- C3: `get_kline` returns the sina adapter's frame when non-empty,
otherwise the akshare adapter's frame when non-empty, otherwise the empty
frame, and (being a total function of the adapter outcomes) never
propagates an exception; the akshare retry loop right-truncates its first
non-empty frame to the trailing 250 rows, and — provided the sina
upstream honours its `datalen = 250` request — every returned series has
at most 250 bars. -/
theorem get_kline_fallback_truncation (sina a1 a2 a3 : Option (List Bar))
    (hs : ∀ rows, sina = some rows → rows.length ≤ 250) :
    (∀ rows, sina = some rows → rows ≠ [] → get_kline sina a1 a2 a3 = rows) ∧
    (getKlineSina sina = [] → get_kline sina a1 a2 a3 = get_kline_akshare a1 a2 a3) ∧
    (∀ (df : List Bar) (rest : List (Option (List Bar))), df ≠ [] →
      akshareLoop (some df :: rest) = takeLastN 250 df) ∧
    ((getKlineSina sina = [] ∧ get_kline_akshare a1 a2 a3 = []) →
      get_kline sina a1 a2 a3 = []) ∧
    (get_kline sina a1 a2 a3).length ≤ 250 := by
  refine ⟨?_, ?_, ?_, ?_, ?_⟩
  · intro rows hr hne
    simp [get_kline, getKlineSina, hr, List.isEmpty_iff, hne]
  · intro h0
    by_cases h2 : get_kline_akshare a1 a2 a3 = [] <;>
      simp [get_kline, h0, List.isEmpty_iff, h2]
  · intro df rest hdf
    simp [akshareLoop, List.isEmpty_iff, hdf]
  · intro ⟨h0, h2⟩
    simp [get_kline, h0, List.isEmpty_iff, h2]
  · by_cases h0 : getKlineSina sina = []
    · by_cases h2 : get_kline_akshare a1 a2 a3 = []
      · simp [get_kline, h0, List.isEmpty_iff, h2]
      · have : get_kline sina a1 a2 a3 = get_kline_akshare a1 a2 a3 := by
          simp [get_kline, h0, List.isEmpty_iff, h2]
        rw [this]
        exact akshareLoop_length_le _
    · cases sina with
      | none => simp [getKlineSina] at h0
      | some rows =>
        have hrw : get_kline (some rows) a1 a2 a3 = rows := by
          simp [get_kline, getKlineSina, List.isEmpty_iff,
            (by simpa [getKlineSina] using h0 : rows ≠ [])]
        rw [hrw]
        exact hs rows rfl



theorem get_kline_fallback_truncation_witness :
    get_kline none (some demoBars300) none none = takeLastN 250 demoBars300 ∧
      demoBars300.length = 300 ∧ (takeLastN 250 demoBars300).length = 250 := by
  have hlen : demoBars300.length = 300 := by simp [demoBars300]
  have h := get_kline_fallback_truncation none (some demoBars300) none none
    (by intro rows hr; cases hr)
  have hne : demoBars300 ≠ [] := by
    intro hc
    rw [hc] at hlen
    simp at hlen
  have h2 := h.2.1 rfl
  have h3 := h.2.2.1 demoBars300 [none, none] hne
  refine ⟨?_, hlen, ?_⟩
  · rw [h2]
    exact h3
  · rw [takeLastN_length_of_le (by omega)]

theorem foldl_add_eq (x : ℚ) (l : List ℚ) : l.foldl (· + ·) x = x + sumQ l := by
  induction l generalizing x with
  | nil => simp [sumQ]
  | cons a t ih =>
    have hs : sumQ (a :: t) = (0 + a) + sumQ t := by
      simp only [sumQ, List.foldl_cons]
      exact ih (0 + a)
    simp only [List.foldl_cons, ih (x + a), hs]
    ring

theorem sumQ_const {xs : List ℚ} {c : ℚ} (h : ∀ x ∈ xs, x = c) :
    sumQ xs = xs.length * c := by
  induction xs with
  | nil => simp [sumQ]
  | cons a t ih =>
    have ha := h a (by simp)
    have hs : sumQ (a :: t) = a + sumQ t := by
      rw [sumQ, List.foldl_cons, foldl_add_eq]
      rw [sumQ]
      ring
    rw [hs, ih (fun x hx => h x (by simp [hx])), List.length_cons, ha,
      Nat.cast_succ]
    ring

theorem dotIdx_const {xs : List ℚ} {c : ℚ} (h : ∀ x ∈ xs, x = c) (a : ℚ) :
    dotIdx a xs = c * idxSum a xs.length := by
  induction xs generalizing a with
  | nil => simp [dotIdx, idxSum]
  | cons y t ih =>
    have hy := h y (by simp)
    simp only [dotIdx, idxSum, List.length_cons, hy,
      ih (fun x hx => h x (by simp [hx])) (a + 1)]
    ring

theorem meanQ_const {xs : List ℚ} {c : ℚ} (h : ∀ x ∈ xs, x = c)
    (hn : xs.length ≠ 0) : meanQ xs = c := by
  have hq : (xs.length : ℚ) ≠ 0 := Nat.cast_ne_zero.mpr hn
  rw [meanQ, sumQ_const h, mul_comm, mul_div_assoc, div_self hq, mul_one]

theorem olsSlope_const {xs : List ℚ} {c : ℚ} (h : ∀ x ∈ xs, x = c) :
    olsSlope xs = 0 := by
  rw [olsSlope]
  rw [dotIdx_const h 0, sumQ_const h]
  have hz : (xs.length : ℚ) * (c * idxSum 0 xs.length)
      - idxSum 0 xs.length * ((xs.length : ℚ) * c) = 0 := by ring
  rw [hz, zero_div]

theorem olsIntercept_const {xs : List ℚ} {c : ℚ} (h : ∀ x ∈ xs, x = c)
    (hn : xs.length ≠ 0) : olsIntercept xs = c := by
  have hq : (xs.length : ℚ) ≠ 0 := Nat.cast_ne_zero.mpr hn
  rw [olsIntercept, olsSlope_const h, sumQ_const h, zero_mul, sub_zero,
    mul_comm, mul_div_assoc, div_self hq, mul_one]

theorem prophetSSTot_const {xs : List ℚ} {c : ℚ} (h : ∀ x ∈ xs, x = c)
    (hn : xs.length ≠ 0) : prophetSSTot xs = 0 := by
  rw [prophetSSTot]
  have hz : ∀ y ∈ xs.map (fun v => (v - meanQ xs) ^ 2), y = 0 := by
    intro y hy
    rcases List.mem_map.mp hy with ⟨x, hx, rfl⟩
    rw [h x hx, meanQ_const h hn]
    ring
  rw [sumQ_const hz, mul_zero]

theorem prophetR2_const {xs : List ℚ} {c : ℚ} (h : ∀ x ∈ xs, x = c)
    (hn : xs.length ≠ 0) : prophetR2 xs = 0 := by
  rw [prophetR2, prophetSSTot_const h hn]
  norm_num

theorem lstm_shape_mismatch {closes : List ℚ} (h : 11 ≤ closes.length) :
    lstm_predict closes = fallbackOf closes := by
  have l10 : (takeLastN 10 closes).length = 10 := takeLastN_length_of_le (by omega)
  have l11 : (takeLastN 11 closes).length = 11 := takeLastN_length_of_le (by omega)
  have l1 : (npDiff (takeLastN 10 closes)).length = 9 := by
    simp [npDiff, List.length_zipWith, List.length_tail, l10]
  have l2 : ((takeLastN 11 closes).dropLast).length = 10 := by
    simp [List.length_dropLast, l11]
  have he : elemDiv (npDiff (takeLastN 10 closes)) ((takeLastN 11 closes).dropLast)
      = Except.error "operands could not be broadcast" := by
    simp [elemDiv, l1, l2]
  simp [lstm_predict, lstmBody, he]

/-- C2 (code-level slip in `_lstm_predict`): for every series of at least
60 bars the momentum estimator returns the fallback
`{'sideways', last close, 0.5}` unconditionally, because the `try`-block
divides the 9 first-differences of `close[-10:]` by the 10 elements of
`close[-11:-1]` — a numpy broadcast error — so the documented
sign-agreement confidence is never computed and the `except` clause
always fires. -/
theorem lstm_predict_always_fallback (closes : List ℚ) (h : 60 ≤ closes.length) :
    lstm_predict closes = ⟨"sideways", lastD closes, 1/2⟩ :=
  lstm_shape_mismatch (by omega)



unseal Rat.add Rat.mul Rat.inv in
theorem lstm_predict_always_fallback_witness :
    60 ≤ demoClose60.length ∧ lstm_predict demoClose60 = ⟨"sideways", 159, 1/2⟩ := by
  refine ⟨by decide, ?_⟩
  rw [lstm_predict_always_fallback demoClose60 (by decide)]
  decide

/-- C6: `_prophet_predict` takes as predicted price the OLS line fitted to
the last 30 closes (`x = 0..29`) evaluated 5 steps beyond the window
(`x = 30 + 5`), and as confidence `|R²|` clamped to `[0.3, 0.9]`; on a
zero-variance window of constant close `c` the confidence degenerates to
the clamp floor `0.3` and the predicted price equals `c`. -/
theorem prophet_ols_extrapolation (closesAll : List ℚ) (h : 60 ≤ closesAll.length) :
    (prophet_predict closesAll).price =
      olsSlope (takeLastN 30 closesAll) * ((30 : ℚ) + 5)
        + olsIntercept (takeLastN 30 closesAll) ∧
    (prophet_predict closesAll).confidence =
      min (9/10) (max (3/10) |prophetR2 (takeLastN 30 closesAll)|) ∧
    (∀ c : ℚ, (∀ x ∈ takeLastN 30 closesAll, x = c) →
      (prophet_predict closesAll).confidence = 3/10 ∧
        (prophet_predict closesAll).price = c) := by
  have h30 : (takeLastN 30 closesAll).length = 30 := takeLastN_length_of_le (by omega)
  refine ⟨?_, ?_, ?_⟩
  · unfold prophet_predict
    dsimp only
    rw [h30]
    norm_num
  · rfl
  · intro c hc
    have hn : (takeLastN 30 closesAll).length ≠ 0 := by omega
    constructor
    · show min (9/10) (max (3/10) |prophetR2 (takeLastN 30 closesAll)|) = 3/10
      rw [prophetR2_const hc hn]
      norm_num
    · show olsSlope (takeLastN 30 closesAll) * ((takeLastN 30 closesAll).length + 5)
          + olsIntercept (takeLastN 30 closesAll) = c
      rw [olsSlope_const hc, olsIntercept_const hc hn, zero_mul, zero_add]

theorem prophet_ols_extrapolation_witness :
    (prophet_predict (List.replicate 60 (100 : ℚ))).confidence = 3/10 ∧
      (prophet_predict (List.replicate 60 (100 : ℚ))).price = 100 :=
  (prophet_ols_extrapolation (List.replicate 60 (100 : ℚ)) (by simp)).2.2 100 (by decide)



theorem clamp_mem (x : ℚ) :
    3/10 ≤ min (9/10) (max (3/10) x) ∧ min (9/10) (max (3/10) x) ≤ 9/10 :=
  ⟨le_min (by norm_num) (le_max_left _ _), min_le_left _ _⟩

/-- Case analysis of `_xgboost_predict` shared by several results. -/
theorem xgboost_cases (sq : ℚ → ℚ)
    (gbm : List (List ℚ × Nat) → List ℚ → List ℚ) (closes : List ℚ) :
    ((validRows sq closes).length < 50 →
      xgboost_predict sq gbm closes = fallbackOf closes) ∧
    (50 ≤ (validRows sq closes).length →
      ∀ p0 p1, gbm (xgbTrain sq closes) (xgbLatest sq closes) = [p0, p1] →
        ((3/5 < p1 → xgboost_predict sq gbm closes =
            ⟨"up", lastD closes * (1 + 3/100 * p1), p1⟩) ∧
         (¬ 3/5 < p1 → 3/5 < p0 → xgboost_predict sq gbm closes =
            ⟨"down", lastD closes * (1 - 3/100 * p0), p0⟩) ∧
         (¬ 3/5 < p1 → ¬ 3/5 < p0 → xgboost_predict sq gbm closes =
            ⟨"sideways", lastD closes, max p0 p1⟩))) := by
  constructor
  · intro hlt
    simp [xgboost_predict, xgbBody, hlt]
  · intro hge p0 p1 heq
    have hlt : ¬ (validRows sq closes).length < 50 := by omega
    have hmax : maxListD [p0, p1] = max p0 p1 := rfl
    refine ⟨?_, ?_, ?_⟩
    · intro h1
      simp [xgboost_predict, xgbBody, hlt, heq, h1]
    · intro h1 h0
      simp [xgboost_predict, xgbBody, hlt, heq, h1, h0]
    · intro h1 h0
      simp [xgboost_predict, xgbBody, hlt, heq, h1, h0, hmax]

/-- C5 (amended): in `_xgboost_predict` rows with undefined features are
dropped (labels are always defined: a missing lookahead compares as
`False` and labels the row `0`); if fewer than 50 feature-valid rows
remain — a count that includes the 5 most recent, label-less rows — the
estimator returns the shared fallback; otherwise the classifier is fit on
the valid rows excluding the most recent 5, the most recent feature row
is scored, and the thresholds are: `up`/`P(up)` when `P(up) > 0.6`, else
`down`/`P(down)` when `P(down) > 0.6`, else `sideways`/max probability. -/
theorem xgboost_branching (sq : ℚ → ℚ)
    (gbm : List (List ℚ × Nat) → List ℚ → List ℚ) (closes : List ℚ) :
    ((validRows sq closes).length < 50 →
      xgboost_predict sq gbm closes = fallbackOf closes) ∧
    (50 ≤ (validRows sq closes).length →
      ∀ p0 p1, gbm (xgbTrain sq closes) (xgbLatest sq closes) = [p0, p1] →
        ((3/5 < p1 → xgboost_predict sq gbm closes =
            ⟨"up", lastD closes * (1 + 3/100 * p1), p1⟩) ∧
         (¬ 3/5 < p1 → 3/5 < p0 → xgboost_predict sq gbm closes =
            ⟨"down", lastD closes * (1 - 3/100 * p0), p0⟩) ∧
         (¬ 3/5 < p1 → ¬ 3/5 < p0 → xgboost_predict sq gbm closes =
            ⟨"sideways", lastD closes, max p0 p1⟩))) :=
  xgboost_cases sq gbm closes

set_option maxRecDepth 80000 in
set_option maxHeartbeats 2000000 in
unseal Rat.add Rat.mul Rat.inv Rat.sub in
theorem xgboost_branching_witness :
    50 ≤ (validRows sq0 demoMixed75).length ∧
      xgboost_predict sq0 gbm95 demoMixed75 =
        ⟨"up", lastD demoMixed75 * (1 + 3/100 * (19/20)), 19/20⟩ := by
  have h := (xgboost_branching sq0 gbm95 demoMixed75).2 (by decide) (1/20) (19/20) rfl
  exact ⟨by decide, h.1 (by norm_num)⟩

set_option maxRecDepth 80000 in
set_option maxHeartbeats 2000000 in
unseal Rat.add Rat.mul Rat.inv Rat.sub in
/-- C5 counterexample: on 69 increasing closes the table left by
`dropna()` has 50 rows — among them the 5 most recent rows, whose
5-bar-lookahead label the claim deems undefined and expects dropped
(only 45 rows carry a defined label) — and the code's small-sample test
`len(df_features) < 50` therefore does not fire although fewer than 50
valid labeled rows remain. The dropping step happens before any
classifier involvement, so this trace is classifier-independent. -/
theorem xgboost_label_threshold_counterexample :
    (validRows sq0 demoClose69).length = 50 ∧
      (specValidLabeledRows sq0 demoClose69).length = 45 ∧
      ¬ ((validRows sq0 demoClose69).length < 50) :=
  ⟨by decide, by decide, by decide⟩

theorem xgb_conf_range (sq : ℚ → ℚ)
    (gbm : List (List ℚ × Nat) → List ℚ → List ℚ) (closes : List ℚ)
    (hgbm : ∀ t r, ∃ p0 p1, gbm t r = [p0, p1] ∧ 0 ≤ p0 ∧ 0 ≤ p1 ∧ p0 + p1 = 1) :
    1/2 ≤ (xgboost_predict sq gbm closes).confidence ∧
      (xgboost_predict sq gbm closes).confidence ≤ 1 := by
  by_cases hlt : (validRows sq closes).length < 50
  · rw [(xgboost_cases sq gbm closes).1 hlt]
    constructor <;> norm_num [fallbackOf]
  · obtain ⟨p0, p1, heq, h0, h1, hsum⟩ := hgbm (xgbTrain sq closes) (xgbLatest sq closes)
    have hb := (xgboost_cases sq gbm closes).2 (by omega) p0 p1 heq
    by_cases hp1 : 3/5 < p1
    · rw [hb.1 hp1]
      constructor <;> simp <;> linarith
    · by_cases hp0 : 3/5 < p0
      · rw [hb.2.1 hp1 hp0]
        constructor <;> simp <;> linarith
      · rw [hb.2.2 hp1 hp0]
        rcases le_total p0 p1 with hle | hle
        · rw [show max p0 p1 = p1 from max_eq_right hle]
          constructor <;> simp <;> linarith
        · rw [show max p0 p1 = p0 from max_eq_left hle]
          constructor <;> simp <;> linarith

/-- What is provable about the merged record's confidences for series of
at least 60 bars: Estimator A's and Estimator B's lie within `[0.3, 0.9]`
(A's by always being the 0.5 fallback, B's by the explicit clamp), while
Estimator C's is the unclamped classifier probability: for any classifier
whose output is a two-class distribution it lies in `[0.5, 1]`; whether
the real seeded classifier ever emits a value above 0.9 is outside the
embedding. -/
theorem confidence_ranges (sq : ℚ → ℚ)
    (gbm : List (List ℚ × Nat) → List ℚ → List ℚ) (closes : List ℚ)
    (h : 60 ≤ closes.length)
    (hgbm : ∀ t r, ∃ p0 p1, gbm t r = [p0, p1] ∧ 0 ≤ p0 ∧ 0 ≤ p1 ∧ p0 + p1 = 1) :
    (3/10 ≤ (predict_all sq gbm closes).lstm_confidence ∧
      (predict_all sq gbm closes).lstm_confidence ≤ 9/10) ∧
    (3/10 ≤ (predict_all sq gbm closes).prophet_confidence ∧
      (predict_all sq gbm closes).prophet_confidence ≤ 9/10) ∧
    (1/2 ≤ (predict_all sq gbm closes).xgboost_confidence ∧
      (predict_all sq gbm closes).xgboost_confidence ≤ 1) := by
  have hn : ¬ closes.length < 60 := by omega
  have hl : (predict_all sq gbm closes).lstm_confidence
      = (lstm_predict closes).confidence := by
    simp [predict_all, hn]
  have hp : (predict_all sq gbm closes).prophet_confidence
      = (prophet_predict closes).confidence := by
    simp [predict_all, hn]
  have hx : (predict_all sq gbm closes).xgboost_confidence
      = (xgboost_predict sq gbm closes).confidence := by
    simp [predict_all, hn]
  refine ⟨?_, ?_, ?_⟩
  · rw [hl, lstm_shape_mismatch (by omega)]
    constructor <;> norm_num [fallbackOf]
  · rw [hp]
    have : (prophet_predict closes).confidence
        = min (9/10) (max (3/10) |prophetR2 (takeLastN 30 closes)|) := rfl
    rw [this]
    exact clamp_mem _
  · rw [hx]
    exact xgb_conf_range sq gbm closes hgbm

